import Mathlib

/-!
Shallow embedding of `packages/hardhat-core/src/internal/hardhat-network/provider/modules/evm.ts`
(the `EvmModule` class of the Hardhat network provider).

JS numbers used as timestamps / iteration counts are modelled as `Int`
(every value the claims quantify over is an integer).  `BN` values are
modelled as `Int` as well (bn.js arbitrary-precision integers), except that
the decoded `rpcQuantity` of `evm_revert` is a non-negative `Nat`.

Each action of the module is a pure function from the Node state and the
decoded parameters to
  (Except RpcError RpcResult) × HardhatNode × List NodeCall
where the third component is the exact ordered sequence of Node operations
the module issued during the request, including those issued before an
exception was thrown (a thrown `InvalidInputError` does not roll back
calls already made).
-/

/-- The two error classes thrown by the module (from `../errors`), plus the
assertion error thrown by bn.js `BN.toNumber` when the value does not fit
in 53 bits. -/
inductive RpcError where
  | invalidInput (message : String)
  | methodNotFound (message : String)
  | assertionError (message : String)
deriving DecidableEq, Repr

/-- Wire-level results returned by the module: strings (decimal or hex
quantity encodings) and the boolean of `evm_revert`. -/
inductive RpcResult where
  | str (s : String)
  | bool (b : Bool)
deriving DecidableEq, Repr

/-- The operations of the external `HardhatNode` collaborator that the
module can invoke (the dependency surface listed in the spec §6). -/
inductive NodeCall where
  | getLatestBlock
  | mineEmptyBlock (timestamp : Int)
  | setNextBlockTimestamp (timestamp : Int)
  | increaseTime (increment : Int)
  | getTimeIncrement
  | revertToSnapshot (snapshotId : Nat)
  | takeSnapshot
deriving DecidableEq, Repr

/-- Modelled from the spec: the observable state of the Node.
`headTimestamp` is the timestamp of `getLatestBlock().header.timestamp`;
`timeOffset` is the cumulative time offset (`increaseTime` adds to it,
`getTimeIncrement` reads it back); `nextBlockTimestamp` is the pin set by
`setNextBlockTimestamp`; `nextSnapshotId` is the id `takeSnapshot` will
issue next (snapshot ids are monotonically issued non-negative integers);
`revertOutcome` is the Node-defined boolean result of `revertToSnapshot`
for each id (opaque to this module, which passes it through). -/
structure HardhatNode where
  headTimestamp : Int
  timeOffset : Int
  nextBlockTimestamp : Option Int
  nextSnapshotId : Nat
  revertOutcome : Nat → Bool

/-- Modelled from the spec: `numberToRpcQuantity` from `../output` encodes a
non-negative integer as a hex quantity string `0x…` (so `0 ↦ "0x0"`). -/
def numberToRpcQuantity (n : Nat) : String :=
  "0x" ++ String.mk (Nat.toDigits 16 n)

/-- bn.js `BN.toNumber`: converts a `BN` to a JS number, asserting that the
value fits in 53 bits; it succeeds exactly on values `< 2 ^ 53` and throws
an assertion error otherwise. -/
def bnToNumber (x : Nat) : Except RpcError Nat :=
  if x < 2 ^ 53 then Except.ok x
  else Except.error (RpcError.assertionError "Number can only safely store up to 53 bits")

/-- Loosely-typed positional parameters as they reach the module: JSON
numbers, arrays of numbers (the `timestamps` list of `evm_mineMultiple`),
hex-quantity strings already decoded to their numeric value, or any other
JSON value (which every io-ts codec used here rejects). -/
inductive RpcParam where
  | num (n : Int)
  | arr (xs : List Int)
  | quantity (q : Nat)
  | other
deriving DecidableEq, Repr

/-- Modelled from the spec: `validateParams(params, t.number)` from
`../input` — exactly one numeric argument, else an "invalid input" error. -/
def validateNumberParams (params : List RpcParam) : Except RpcError Int :=
  match params with
  | [RpcParam.num n] => Except.ok n
  | _ => Except.error (RpcError.invalidInput "Invalid params supplied")

/-- Modelled from the spec: `validateParams(params, t.number, t.Array)` —
exactly a numeric argument followed by an array argument. -/
def validateNumberArrayParams (params : List RpcParam) :
    Except RpcError (Int × List Int) :=
  match params with
  | [RpcParam.num n, RpcParam.arr xs] => Except.ok (n, xs)
  | _ => Except.error (RpcError.invalidInput "Invalid params supplied")

/-- Modelled from the spec: `validateParams(params, rpcQuantity)` — exactly
one hex-quantity argument, decoded to its (arbitrary-precision) value. -/
def validateQuantityParams (params : List RpcParam) : Except RpcError Nat :=
  match params with
  | [RpcParam.quantity q] => Except.ok q
  | _ => Except.error (RpcError.invalidInput "Invalid params supplied")

/-- `_setNextBlockTimestampParams`: `validateParams(params, t.number)`. -/
def setNextBlockTimestampParams (params : List RpcParam) : Except RpcError Int :=
  validateNumberParams params

/-- `_increaseTimeParams`: `validateParams(params, t.number)`. -/
def increaseTimeParams (params : List RpcParam) : Except RpcError Int :=
  validateNumberParams params

/-- `_mineParams`: if no parameter is supplied, push `0`; then
`validateParams(params, t.number)`. -/
def mineParams (params : List RpcParam) : Except RpcError Int :=
  validateNumberParams (if params.length = 0 then params ++ [RpcParam.num 0] else params)

/-- `_mineMultipleParams`: a fall-through switch on the arity — with zero
parameters push `0` then `[]`, with one parameter push `[]`; then
`validateParams(params, t.number, t.Array)`. -/
def mineMultipleParams (params : List RpcParam) : Except RpcError (Int × List Int) :=
  validateNumberArrayParams
    (match params with
     | [] => [RpcParam.num 0, RpcParam.arr []]
     | [p] => [p, RpcParam.arr []]
     | ps => ps)

/-- `_revertParams`: `validateParams(params, rpcQuantity)`. -/
def revertParams (params : List RpcParam) : Except RpcError Nat :=
  validateQuantityParams params

/-- `_snapshotParams`: returns `[]` unconditionally, ignoring whatever
parameters were supplied (no validation is performed). -/
def snapshotParams (_params : List RpcParam) : List RpcParam :=
  []

/-- The outcome of one request: the wire result or thrown error, the Node
state afterwards, and the ordered Node calls issued. -/
abbrev EvmOutcome := Except RpcError RpcResult × HardhatNode × List NodeCall

/-- `_setNextBlockTimestampAction`: read the head block, fail if
`timestamp - headTimestamp ≤ 0`, else pin the next block timestamp on the
Node and return the timestamp as a decimal string. -/
def setNextBlockTimestampAction (node : HardhatNode) (timestamp : Int) : EvmOutcome :=
  let headTs := node.headTimestamp
  if timestamp - headTs ≤ 0 then
    (Except.error (RpcError.invalidInput
        ("Timestamp " ++ toString timestamp ++
         " is lower than previous block's timestamp " ++ toString headTs)),
     node, [NodeCall.getLatestBlock])
  else
    (Except.ok (RpcResult.str (toString timestamp)),
     { node with nextBlockTimestamp := some timestamp },
     [NodeCall.getLatestBlock, NodeCall.setNextBlockTimestamp timestamp])

/-- `_increaseTimeAction`: ask the Node to add `increment` to its cumulative
time offset, read the total back, return it as a decimal string. -/
def increaseTimeAction (node : HardhatNode) (increment : Int) : EvmOutcome :=
  let node1 : HardhatNode := { node with timeOffset := node.timeOffset + increment }
  (Except.ok (RpcResult.str (toString node1.timeOffset)),
   node1, [NodeCall.increaseTime increment, NodeCall.getTimeIncrement])

/-- `_mineAction`: when `timestamp ≠ 0`, read the head block and fail if
`timestamp - headTimestamp ≤ 0`; otherwise (and always when
`timestamp = 0`, with no head-timestamp read at all) mine one empty block
with that timestamp and return `numberToRpcQuantity 0`. -/
def mineAction (node : HardhatNode) (timestamp : Int) : EvmOutcome :=
  if timestamp ≠ 0 then
    let headTs := node.headTimestamp
    if timestamp - headTs ≤ 0 then
      (Except.error (RpcError.invalidInput
          ("Timestamp " ++ toString timestamp ++
           " is lower than previous block's timestamp " ++ toString headTs)),
       node, [NodeCall.getLatestBlock])
    else
      (Except.ok (RpcResult.str (numberToRpcQuantity 0)),
       node, [NodeCall.getLatestBlock, NodeCall.mineEmptyBlock timestamp])
  else
    (Except.ok (RpcResult.str (numberToRpcQuantity 0)),
     node, [NodeCall.mineEmptyBlock timestamp])

/-- The `every((ts, idx, arr) => …)` callback of `_mineMultipleAction`:
every element other than the last is strictly below its successor. -/
def increasingSequence : List Int → Bool
  | [] => true
  | [_] => true
  | a :: b :: rest => (a < b) && increasingSequence (b :: rest)

/-- The tail of `_mineMultipleAction` after the timestamp checks: reject a
non-positive iteration count, else mine `iterations` empty blocks, block
`it` pinned to `timestampsBN[it]` when `it < timestampsBN.length` and to
the sentinel `0` otherwise; `calls` are the Node calls already issued. -/
def mineMultipleMine (node : HardhatNode) (iterations : Int)
    (timestamps : List Int) (calls : List NodeCall) : EvmOutcome :=
  if iterations ≤ 0 then
    (Except.error (RpcError.invalidInput
        "Invalid iterations number, it must be greater than 0"),
     node, calls)
  else
    (Except.ok (RpcResult.str (numberToRpcQuantity 0)),
     node,
     calls ++ (List.range iterations.toNat).map
       (fun it => NodeCall.mineEmptyBlock (timestamps.getD it 0)))

/-- `_mineMultipleAction`: with a non-empty timestamps list, first reject a
list longer than `iterations` (before any Node call), then read the head
block and reject a first timestamp not exceeding it, then reject a
non-increasing sequence; finally check `iterations` and mine. -/
def mineMultipleAction (node : HardhatNode) (iterations : Int)
    (timestamps : List Int) : EvmOutcome :=
  if timestamps.length = 0 then
    mineMultipleMine node iterations timestamps []
  else if (timestamps.length : Int) > iterations then
    (Except.error (RpcError.invalidInput
        ("Timestamps array size " ++ toString timestamps.length ++
         " must be lower than or equal to the number of iterations specified " ++
         toString iterations ++ ".")),
     node, [])
  else if timestamps.getD 0 0 ≤ node.headTimestamp then
    (Except.error (RpcError.invalidInput
        ("First timestamp specified " ++ toString (timestamps.getD 0 0) ++
         " should be greater than latest block's timestamp " ++
         toString node.headTimestamp)),
     node, [NodeCall.getLatestBlock])
  else if increasingSequence timestamps = false then
    (Except.error (RpcError.invalidInput
        "Timestamps specified must be an increasing sequence"),
     node, [NodeCall.getLatestBlock])
  else
    mineMultipleMine node iterations timestamps [NodeCall.getLatestBlock]

/-- `_revertAction`: convert the decoded snapshot id with `BN.toNumber`
(which asserts on values ≥ 2^53), then ask the Node to revert and pass its
boolean result through unmodified. -/
def revertAction (node : HardhatNode) (snapshotId : Nat) : EvmOutcome :=
  match bnToNumber snapshotId with
  | Except.error e => (Except.error e, node, [])
  | Except.ok n =>
      (Except.ok (RpcResult.bool (node.revertOutcome n)),
       node, [NodeCall.revertToSnapshot n])

/-- `_snapshotAction`: ask the Node for a snapshot and return the fresh id
as a hex quantity. -/
def snapshotAction (node : HardhatNode) : EvmOutcome :=
  (Except.ok (RpcResult.str (numberToRpcQuantity node.nextSnapshotId)),
   { node with nextSnapshotId := node.nextSnapshotId + 1 },
   [NodeCall.takeSnapshot])

/-- `processRequest`: dispatch on the method name; each branch validates the
parameters (a validation error is thrown before any Node call) and runs the
action; an unrecognized method throws `MethodNotFoundError`. -/
def processRequest (node : HardhatNode) (method : String)
    (params : List RpcParam) : EvmOutcome :=
  if method = "evm_increaseTime" then
    match increaseTimeParams params with
    | Except.error e => (Except.error e, node, [])
    | Except.ok increment => increaseTimeAction node increment
  else if method = "evm_setNextBlockTimestamp" then
    match setNextBlockTimestampParams params with
    | Except.error e => (Except.error e, node, [])
    | Except.ok timestamp => setNextBlockTimestampAction node timestamp
  else if method = "evm_mine" then
    match mineParams params with
    | Except.error e => (Except.error e, node, [])
    | Except.ok timestamp => mineAction node timestamp
  else if method = "evm_mineMultiple" then
    match mineMultipleParams params with
    | Except.error e => (Except.error e, node, [])
    | Except.ok (iterations, timestamps) => mineMultipleAction node iterations timestamps
  else if method = "evm_revert" then
    match revertParams params with
    | Except.error e => (Except.error e, node, [])
    | Except.ok snapshotId => revertAction node snapshotId
  else if method = "evm_snapshot" then
    let _ := snapshotParams params
    snapshotAction node
  else
    (Except.error (RpcError.methodNotFound ("Method " ++ method ++ " not found")),
     node, [])

/-- A concrete Node state used to instantiate the theorems. -/
def testNode : HardhatNode :=
  { headTimestamp := 100
    timeOffset := 0
    nextBlockTimestamp := none
    nextSnapshotId := 1
    revertOutcome := fun n => decide (n % 2 = 1) }

/-- Whether a Node call is a `mineEmptyBlock` request. -/
def NodeCall.isMine : NodeCall → Bool
  | NodeCall.mineEmptyBlock _ => true
  | _ => false

/-- Dispatching `evm_mineMultiple` with a numeric and an array parameter runs
`_mineMultipleAction` on the decoded pair. -/
theorem processRequest_mineMultiple (node : HardhatNode) (iterations : Int)
    (timestamps : List Int) :
    processRequest node "evm_mineMultiple" [RpcParam.num iterations, RpcParam.arr timestamps]
      = mineMultipleAction node iterations timestamps := rfl

/-- Reading a list through `getD` at the indices `0, …, n-1` yields the list
followed by `n - length` copies of the default. -/
theorem range_map_getD (ts : List Int) :
    ∀ n : Nat, ts.length ≤ n →
      (List.range n).map (fun it => ts.getD it 0) = ts ++ List.replicate (n - ts.length) 0 := by
  induction ts with
  | nil =>
      intro n _
      simp [List.getD]
  | cons a ts ih =>
      intro n h
      cases n with
      | zero => simp at h
      | succ m =>
          rw [List.range_succ_eq_map, List.map_cons, List.map_map]
          simp only [Function.comp_def, List.getD_cons_zero, List.getD_cons_succ]
          rw [ih m (by simpa using h)]
          simp [Nat.succ_sub_succ]

/-- C1: whenever a `mineMultiple` precondition is violated — the timestamps
list is longer than `iterations`, the first timestamp is at most the head
block timestamp, the timestamps are not strictly increasing, or
`iterations ≤ 0` — the request fails with `InvalidInput` and the Node's
`mineEmptyBlock` is never invoked. -/
theorem mineMultiple_precondition_rejects (node : HardhatNode) (iterations : Int)
    (timestamps : List Int)
    (h : (timestamps.length : Int) > iterations
       ∨ (∃ t0 rest, timestamps = t0 :: rest ∧ t0 ≤ node.headTimestamp)
       ∨ increasingSequence timestamps = false
       ∨ iterations ≤ 0) :
    (∃ msg, (processRequest node "evm_mineMultiple"
        [RpcParam.num iterations, RpcParam.arr timestamps]).1
        = Except.error (RpcError.invalidInput msg))
    ∧ ∀ ts, NodeCall.mineEmptyBlock ts ∉
        (processRequest node "evm_mineMultiple"
          [RpcParam.num iterations, RpcParam.arr timestamps]).2.2 := by
  rw [processRequest_mineMultiple]
  unfold mineMultipleAction mineMultipleMine
  split_ifs with h1 h2 h3 h4 h5 h6
  · exact ⟨⟨_, rfl⟩, by simp⟩
  · exfalso
    have hts : timestamps = [] := List.length_eq_zero.mp h1
    subst hts
    rcases h with hd | ⟨t0, rest, habs, _⟩ | hd | hd
    · simp at hd; omega
    · exact List.noConfusion habs
    · simp [increasingSequence] at hd
    · exact h2 hd
  · exact ⟨⟨_, rfl⟩, by simp⟩
  · exact ⟨⟨_, rfl⟩, by simp⟩
  · exact ⟨⟨_, rfl⟩, by simp⟩
  · exact ⟨⟨_, rfl⟩, by simp⟩
  · exfalso
    rcases h with hd | ⟨t0, rest, hts, hle⟩ | hd | hd
    · exact h3 hd
    · subst hts
      simp only [List.getD_cons_zero] at h4
      omega
    · exact h5 hd
    · exact h6 hd

/-- C2: a valid `mineMultiple` request (positive `iterations`, at most that
many timestamps, first above the head timestamp, strictly increasing)
returns the zero hex quantity and issues exactly `iterations` ordered
`mineEmptyBlock` calls: one per supplied timestamp in order, then the
sentinel-zero remainder. -/
theorem mineMultiple_success_mines_in_order (node : HardhatNode) (iterations : Int)
    (timestamps : List Int)
    (hpos : 0 < iterations)
    (hlen : (timestamps.length : Int) ≤ iterations)
    (hfirst : ∀ t0 ∈ timestamps.head?, node.headTimestamp < t0)
    (hinc : increasingSequence timestamps = true) :
    (processRequest node "evm_mineMultiple"
        [RpcParam.num iterations, RpcParam.arr timestamps]).1
      = Except.ok (RpcResult.str "0x0")
    ∧ ((processRequest node "evm_mineMultiple"
        [RpcParam.num iterations, RpcParam.arr timestamps]).2.2.filter NodeCall.isMine
      = timestamps.map NodeCall.mineEmptyBlock
        ++ List.replicate (iterations.toNat - timestamps.length)
            (NodeCall.mineEmptyBlock 0)) := by
  have hlen2 : timestamps.length ≤ iterations.toNat := by omega
  have hmines : (List.range iterations.toNat).map
      (fun it => NodeCall.mineEmptyBlock (timestamps.getD it 0))
      = timestamps.map NodeCall.mineEmptyBlock
        ++ List.replicate (iterations.toNat - timestamps.length)
            (NodeCall.mineEmptyBlock 0) := by
    have : (List.range iterations.toNat).map
        (fun it => NodeCall.mineEmptyBlock (timestamps.getD it 0))
        = ((List.range iterations.toNat).map
            (fun it => timestamps.getD it 0)).map NodeCall.mineEmptyBlock := by
      rw [List.map_map]
      rfl
    rw [this, range_map_getD timestamps iterations.toNat hlen2, List.map_append,
      List.map_replicate]
  rw [processRequest_mineMultiple]
  unfold mineMultipleAction mineMultipleMine
  split_ifs with h1 h2 h3 h4 h5 h6
  · omega
  · constructor
    · rfl
    · have hts : timestamps = [] := List.length_eq_zero.mp h1
      subst hts
      simp [NodeCall.isMine, List.filter_map, Function.comp_def]
  · exfalso; omega
  · exfalso
    rcases timestamps with _ | ⟨t0, rest⟩
    · simp at h1
    · have := hfirst t0 (by simp)
      simp only [List.getD_cons_zero] at h4
      omega
  · exact absurd hinc (by simp [h5])
  · omega
  · constructor
    · rfl
    · simpa [NodeCall.isMine, List.filter_map, List.filter_append, Function.comp_def]
        using hmines

/-- Witness for C1: `evm_mineMultiple` with iterations 2 and the
non-increasing timestamps `[101, 90]` on `testNode`. -/
theorem mineMultiple_precondition_rejects_witness :
    (∃ msg, (processRequest testNode "evm_mineMultiple"
        [RpcParam.num 2, RpcParam.arr [101, 90]]).1
        = Except.error (RpcError.invalidInput msg))
    ∧ ∀ ts, NodeCall.mineEmptyBlock ts ∉
        (processRequest testNode "evm_mineMultiple"
          [RpcParam.num 2, RpcParam.arr [101, 90]]).2.2 :=
  mineMultiple_precondition_rejects testNode 2 [101, 90]
    (Or.inr (Or.inr (Or.inl (by decide))))

/-- Witness for C2: `evm_mineMultiple` with 3 iterations and timestamps
`[101, 102]` on `testNode`. -/
theorem mineMultiple_success_mines_in_order_witness :
    (processRequest testNode "evm_mineMultiple"
        [RpcParam.num 3, RpcParam.arr [101, 102]]).1
      = Except.ok (RpcResult.str "0x0")
    ∧ ((processRequest testNode "evm_mineMultiple"
        [RpcParam.num 3, RpcParam.arr [101, 102]]).2.2.filter NodeCall.isMine
      = ([101, 102] : List Int).map NodeCall.mineEmptyBlock
        ++ List.replicate ((3 : Int).toNat - ([101, 102] : List Int).length)
            (NodeCall.mineEmptyBlock 0)) :=
  mineMultiple_success_mines_in_order testNode 3 [101, 102]
    (by decide) (by decide)
    (by
      intro t0 ht
      simp only [List.head?, Option.mem_def, Option.some.injEq] at ht
      subst ht
      decide)
    (by decide)

/-- C3: `setNextBlockTimestamp t` fails with `InvalidInput` citing both `t`
and the head timestamp exactly when `t - headTimestamp ≤ 0`, never calling
the Node's `setNextBlockTimestamp` in that case; otherwise it pins the next
block timestamp to `t` on the Node and returns `t` as a decimal string. -/
theorem setNextBlockTimestamp_spec (node : HardhatNode) (t : Int) :
    (t - node.headTimestamp ≤ 0 →
      (processRequest node "evm_setNextBlockTimestamp" [RpcParam.num t]).1
        = Except.error (RpcError.invalidInput
            ("Timestamp " ++ toString t ++
             " is lower than previous block's timestamp " ++ toString node.headTimestamp))
      ∧ ∀ u, NodeCall.setNextBlockTimestamp u ∉
          (processRequest node "evm_setNextBlockTimestamp" [RpcParam.num t]).2.2)
    ∧ (0 < t - node.headTimestamp →
      processRequest node "evm_setNextBlockTimestamp" [RpcParam.num t]
        = (Except.ok (RpcResult.str (toString t)),
           { node with nextBlockTimestamp := some t },
           [NodeCall.getLatestBlock, NodeCall.setNextBlockTimestamp t])) := by
  have hred : processRequest node "evm_setNextBlockTimestamp" [RpcParam.num t]
      = setNextBlockTimestampAction node t := rfl
  rw [hred]
  unfold setNextBlockTimestampAction
  constructor
  · intro h
    rw [if_pos h]
    exact ⟨rfl, by simp⟩
  · intro h
    rw [if_neg (by omega)]

/-- Witness for C3: on `testNode` (head timestamp 100) the timestamp 200 is
accepted and 50 is rejected with the citing message. -/
theorem setNextBlockTimestamp_spec_witness :
    (processRequest testNode "evm_setNextBlockTimestamp" [RpcParam.num 200]).1
      = Except.ok (RpcResult.str "200")
    ∧ (processRequest testNode "evm_setNextBlockTimestamp" [RpcParam.num 50]).1
      = Except.error (RpcError.invalidInput
          "Timestamp 50 is lower than previous block's timestamp 100") :=
  ⟨by rw [(setNextBlockTimestamp_spec testNode 200).2 (by decide)]; rfl,
   by rw [((setNextBlockTimestamp_spec testNode 50).1 (by decide)).1]; rfl⟩

/-- C4: `mine t` with `t ≠ 0` fails with `InvalidInput` and mines nothing
when `t ≤ head timestamp`; with `t > head` it mines exactly one block with
timestamp `t` and returns "0x0"; and `t = 0` — also the defaulted empty
parameter list — skips the head-timestamp check entirely and mines one
block with the sentinel 0. -/
theorem mine_spec (node : HardhatNode) (t : Int) :
    (t ≠ 0 → t - node.headTimestamp ≤ 0 →
      (processRequest node "evm_mine" [RpcParam.num t]).1
        = Except.error (RpcError.invalidInput
            ("Timestamp " ++ toString t ++
             " is lower than previous block's timestamp " ++ toString node.headTimestamp))
      ∧ ∀ u, NodeCall.mineEmptyBlock u ∉
          (processRequest node "evm_mine" [RpcParam.num t]).2.2)
    ∧ (node.headTimestamp < t →
      (processRequest node "evm_mine" [RpcParam.num t]).1 = Except.ok (RpcResult.str "0x0")
      ∧ (processRequest node "evm_mine" [RpcParam.num t]).2.2.filter NodeCall.isMine
          = [NodeCall.mineEmptyBlock t])
    ∧ processRequest node "evm_mine" [RpcParam.num 0]
        = (Except.ok (RpcResult.str "0x0"), node, [NodeCall.mineEmptyBlock 0])
    ∧ processRequest node "evm_mine" []
        = (Except.ok (RpcResult.str "0x0"), node, [NodeCall.mineEmptyBlock 0]) := by
  have hred : ∀ u : Int, processRequest node "evm_mine" [RpcParam.num u] = mineAction node u :=
    fun u => rfl
  have hred0 : processRequest node "evm_mine" [] = mineAction node 0 := rfl
  refine ⟨?_, ?_, ?_, ?_⟩
  · intro ht hle
    rw [hred t]
    unfold mineAction
    rw [if_pos ht, if_pos hle]
    exact ⟨rfl, by simp⟩
  · intro hgt
    rw [hred t]
    unfold mineAction
    by_cases ht : t = 0
    · subst ht
      rw [if_neg (by simp)]
      exact ⟨rfl, by simp [List.filter, NodeCall.isMine]⟩
    · rw [if_pos ht, if_neg (by omega)]
      exact ⟨rfl, by simp [List.filter, NodeCall.isMine]⟩
  · rw [hred 0]
    rfl
  · rw [hred0]
    rfl

/-- Witness for C4: on `testNode` the timestamp 50 is rejected and 150 is
mined. -/
theorem mine_spec_witness :
    (processRequest testNode "evm_mine" [RpcParam.num 50]).1
      = Except.error (RpcError.invalidInput
          "Timestamp 50 is lower than previous block's timestamp 100")
    ∧ (processRequest testNode "evm_mine" [RpcParam.num 150]).1
      = Except.ok (RpcResult.str "0x0") :=
  ⟨by rw [((mine_spec testNode 50).1 (by decide) (by decide)).1]; rfl,
   by rw [((mine_spec testNode 150).2.1 (by decide)).1]⟩

/-- C5: `increaseTime increment` adds `increment` to the Node's cumulative
time offset, reads the total back, and returns it as a decimal string; in
particular two calls with 5 and 10 from a zero offset return "15". -/
theorem increaseTime_spec (node : HardhatNode) (increment : Int) :
    processRequest node "evm_increaseTime" [RpcParam.num increment]
      = (Except.ok (RpcResult.str (toString (node.timeOffset + increment))),
         { node with timeOffset := node.timeOffset + increment },
         [NodeCall.increaseTime increment, NodeCall.getTimeIncrement])
    ∧ (node.timeOffset = 0 →
      (processRequest
          (processRequest node "evm_increaseTime" [RpcParam.num 5]).2.1
          "evm_increaseTime" [RpcParam.num 10]).1
        = Except.ok (RpcResult.str "15")) := by
  constructor
  · rfl
  · intro h
    show (increaseTimeAction (increaseTimeAction node 5).2.1 10).1 = _
    simp only [increaseTimeAction, h]
    norm_num
    rfl

/-- Witness for C5: `evm_increaseTime` 5 then 10 on `testNode` returns the
decimal string "15". -/
theorem increaseTime_spec_witness :
    (processRequest (processRequest testNode "evm_increaseTime" [RpcParam.num 5]).2.1
        "evm_increaseTime" [RpcParam.num 10]).1 = Except.ok (RpcResult.str "15") :=
  (increaseTime_spec testNode 5).2 rfl

/-- C6: any method outside the six supported names fails with
`MethodNotFound` carrying the offending name, with the Node untouched and
no Node call issued. -/
theorem processRequest_unknown_method (node : HardhatNode) (method : String)
    (params : List RpcParam)
    (h : method ∉ ["evm_increaseTime", "evm_setNextBlockTimestamp", "evm_mine",
        "evm_mineMultiple", "evm_revert", "evm_snapshot"]) :
    processRequest node method params
      = (Except.error (RpcError.methodNotFound ("Method " ++ method ++ " not found")),
         node, []) := by
  simp only [List.mem_cons, List.not_mem_nil, or_false, not_or] at h
  obtain ⟨h1, h2, h3, h4, h5, h6⟩ := h
  simp [processRequest, h1, h2, h3, h4, h5, h6]

/-- Witness for C6: `processRequest` on the unknown method "evm_bogus". -/
theorem processRequest_unknown_method_witness :
    processRequest testNode "evm_bogus" []
      = (Except.error (RpcError.methodNotFound "Method evm_bogus not found"),
         testNode, []) := by
  rw [processRequest_unknown_method testNode "evm_bogus" [] (by decide)]
  rfl

/-- Counterexample for C7: at snapshot id `2 ^ 53` the `evm_revert` request
does not return the Node's boolean — `BN.toNumber` throws its assertion
error first — and no Node call is made. -/
theorem revert_passthrough_counterexample :
    (processRequest testNode "evm_revert" [RpcParam.quantity (2 ^ 53)]).1
      = Except.error (RpcError.assertionError "Number can only safely store up to 53 bits")
    ∧ (processRequest testNode "evm_revert" [RpcParam.quantity (2 ^ 53)]).2.2 = [] :=
  ⟨rfl, rfl⟩

/-- C7 (amended): for every snapshot id below `2 ^ 53` supplied as one
quantity argument, `revert` asks the Node to restore that snapshot and
passes the Node's boolean result through unmodified. -/
theorem revert_passthrough_safe_id (node : HardhatNode) (q : Nat) (h : q < 2 ^ 53) :
    processRequest node "evm_revert" [RpcParam.quantity q]
      = (Except.ok (RpcResult.bool (node.revertOutcome q)), node,
         [NodeCall.revertToSnapshot q]) := by
  have hred : processRequest node "evm_revert" [RpcParam.quantity q]
      = revertAction node q := rfl
  rw [hred]
  unfold revertAction bnToNumber
  rw [if_pos h]

/-- Witness for C7: reverting to snapshot id 7 on `testNode`. -/
theorem revert_passthrough_safe_id_witness :
    processRequest testNode "evm_revert" [RpcParam.quantity 7]
      = (Except.ok (RpcResult.bool (testNode.revertOutcome 7)), testNode,
         [NodeCall.revertToSnapshot 7]) :=
  revert_passthrough_safe_id testNode 7 (by norm_num)

/-- Counterexample for C8: `evm_snapshot` with a non-empty parameter list
does not fail — it succeeds and takes a snapshot. -/
theorem snapshot_nonempty_counterexample :
    (processRequest testNode "evm_snapshot" [RpcParam.num 1]).1
      = Except.ok (RpcResult.str "0x1")
    ∧ (processRequest testNode "evm_snapshot" [RpcParam.num 1]).2.2
      = [NodeCall.takeSnapshot] :=
  ⟨rfl, rfl⟩

/-- C8 (amended): `evm_snapshot` ignores its parameter list entirely — for
every parameter list, including non-empty ones, it succeeds, takes a
snapshot, and returns the fresh id as a hex quantity. -/
theorem snapshot_ignores_params (node : HardhatNode) (params : List RpcParam) :
    processRequest node "evm_snapshot" params
      = (Except.ok (RpcResult.str (numberToRpcQuantity node.nextSnapshotId)),
         { node with nextSnapshotId := node.nextSnapshotId + 1 },
         [NodeCall.takeSnapshot]) := rfl

/-- C9: `evm_mineMultiple` with the empty parameter list defaults to
iterations 0 and an empty timestamps list, which the `iterations > 0`
precondition then rejects with `InvalidInput`, with no Node call. -/
theorem mineMultiple_empty_params_always_rejected (node : HardhatNode) :
    mineMultipleParams [] = Except.ok (0, [])
    ∧ processRequest node "evm_mineMultiple" []
      = (Except.error (RpcError.invalidInput
          "Invalid iterations number, it must be greater than 0"),
         node, []) :=
  ⟨rfl, rfl⟩

/-- C10: for every snapshot id at least `2 ^ 53`, `evm_revert` fails with
the bn.js `toNumber` assertion error before the Node's `revertToSnapshot`
is ever called, instead of passing a truncated id to the Node. -/
theorem revert_unsafe_id_asserts (node : HardhatNode) (q : Nat) (h : 2 ^ 53 ≤ q) :
    processRequest node "evm_revert" [RpcParam.quantity q]
      = (Except.error (RpcError.assertionError "Number can only safely store up to 53 bits"),
         node, []) := by
  have hred : processRequest node "evm_revert" [RpcParam.quantity q]
      = revertAction node q := rfl
  rw [hred]
  unfold revertAction bnToNumber
  rw [if_neg (by omega)]

/-- Witness for C10: reverting to snapshot id `2 ^ 53 + 1` on `testNode`. -/
theorem revert_unsafe_id_asserts_witness :
    processRequest testNode "evm_revert" [RpcParam.quantity (2 ^ 53 + 1)]
      = (Except.error (RpcError.assertionError "Number can only safely store up to 53 bits"),
         testNode, []) :=
  revert_unsafe_id_asserts testNode (2 ^ 53 + 1) (by norm_num)

/-- Witness for C8: `snapshot_ignores_params` at `testNode` with a two
element parameter list. -/
theorem snapshot_ignores_params_witness :
    processRequest testNode "evm_snapshot" [RpcParam.num 3, RpcParam.other]
      = (Except.ok (RpcResult.str (numberToRpcQuantity testNode.nextSnapshotId)),
         { testNode with nextSnapshotId := testNode.nextSnapshotId + 1 },
         [NodeCall.takeSnapshot]) :=
  snapshot_ignores_params testNode [RpcParam.num 3, RpcParam.other]

/-- Witness for C9: `mineMultiple_empty_params_always_rejected` at
`testNode`. -/
theorem mineMultiple_empty_params_always_rejected_witness :
    mineMultipleParams [] = Except.ok (0, [])
    ∧ processRequest testNode "evm_mineMultiple" []
      = (Except.error (RpcError.invalidInput
          "Invalid iterations number, it must be greater than 0"),
         testNode, []) :=
  mineMultiple_empty_params_always_rejected testNode
